import Mathlib

/-!
Shallow embedding of the note-management core of
src/notes_frontend/src/App.js: the note data model, the store operations
(create / update / delete / select), the search projection and the
selection resolver, together with proofs about the spec-level claims.

Modelling conventions:
* ISO-8601 timestamp strings produced by Date.toISOString are modelled
  as natural numbers (epoch milliseconds); their lexicographic order
  agrees with the numeric order of the instants they denote.  Every
  call of new Date() in the source becomes an explicit time parameter.
* Math.floor of Math.random times 9999 becomes an explicit natural
  number parameter r.
* JS strings are Lean Strings.  String.prototype.includes,
  .toLowerCase and .trim are modelled on the underlying character
  lists (contiguous-sublist containment, character-wise lowering, and
  dropping whitespace from both ends), so that every definition
  evaluates by kernel reduction on concrete inputs.
-/

/-- A timestamp, modelled as epoch milliseconds. -/
abbrev Timestamp := Nat

/-- Embeds the id generator of App.js line 10, which evaluates
"id-" + Date.now() + "-" + Math.floor(Math.random()*9999),
with the wall clock reading t and the random draw r as explicit
arguments.  JS number-to-string conversion on naturals is Nat.repr. -/
def generateId (t r : Nat) : String :=
  "id-" ++ Nat.repr t ++ "-" ++ Nat.repr r

/-- Decode a list of decimal digit characters back into a natural
number; the left inverse of the digit printing inside Nat.repr, used to
prove that distinct wall-clock readings give distinct generated ids. -/
def decodeDigits (l : List Char) : Nat :=
  l.foldl (fun a c => 10 * a + (c.toNat - 48)) 0

/-- One note record, the object shape documented at App.js line 14:
id, title, content, created, updated. -/
structure Note where
  id : String
  title : String
  content : String
  created : Timestamp
  updated : Timestamp
deriving DecidableEq

/-- The store state: the ordered collection (notes) and the selected id
(selectedNoteId), the two useState cells of App that the claims are
about.  The search query and the sidebar flag are presentation state
and enter the derived views as plain parameters. -/
structure AppState where
  notes : List Note
  selectedNoteId : Option String
deriving DecidableEq

/-- The initial store state: useState([]) and useState(null). -/
def initialState : AppState := { notes := [], selectedNoteId := none }

/-- Embeds handleCreateNote, App.js lines 34-45: build a fresh note
with title "Untitled Note", empty content and both timestamps equal to
now, prepend it to the collection and select it. -/
def handleCreateNote (t : Timestamp) (r : Nat) (s : AppState) : AppState :=
  let note : Note :=
    { id := generateId t r
      title := "Untitled Note"
      content := ""
      created := t
      updated := t }
  { notes := note :: s.notes, selectedNoteId := some note.id }

/-- The object of optional new fields passed to updateNote: an
optional new title and an optional new content. -/
structure NoteFields where
  title : Option String := none
  content : Option String := none
deriving DecidableEq

/-- JS object spread of the optional new fields over a note: a field of the
result is the supplied value when present, the old value otherwise. -/
def spreadFields (n : Note) (f : NoteFields) : Note :=
  { n with
      title := f.title.getD n.title
      content := f.content.getD n.content }

/-- Embeds handleUpdateNote, App.js lines 47-53: map over the
collection, and for the note whose id matches, spread the new fields
over it and stamp updated with the current time. -/
def handleUpdateNote (id : String) (newFields : NoteFields) (t : Timestamp)
    (s : AppState) : AppState :=
  { s with
      notes := s.notes.map fun n =>
        if n.id = id then { spreadFields n newFields with updated := t } else n }

/-- Embeds handleDeleteNote, App.js lines 55-58: drop the notes whose
id matches, and clear the selection when the deleted id was selected. -/
def handleDeleteNote (id : String) (s : AppState) : AppState :=
  { notes := s.notes.filter fun n => n.id ≠ id
    selectedNoteId := if s.selectedNoteId = some id then none else s.selectedNoteId }

/-- Embeds handleSelectNote, App.js lines 60-62: set the selection
unconditionally. -/
def handleSelectNote (id : Option String) (s : AppState) : AppState :=
  { s with selectedNoteId := id }

/-- JS String.prototype.includes: the pattern occurs as a contiguous
substring. -/
def jsIncludes (s pat : String) : Bool :=
  decide (pat.data <:+: s.data)

/-- JS String.prototype.toLowerCase, modelled character-wise. -/
def jsToLower (s : String) : String :=
  ⟨s.data.map Char.toLower⟩

/-- JS String.prototype.trim: strip whitespace from both ends. -/
def jsTrim (s : String) : String :=
  ⟨((s.data.dropWhile Char.isWhitespace).reverse.dropWhile Char.isWhitespace).reverse⟩

/-- Embeds the filteredNotes memo, App.js lines 21-28: the whole
collection when the trimmed query is empty (JS falsiness of the empty
string), otherwise the notes whose lowered title or lowered content
contains the lowered query. -/
def filteredNotes (searchQuery : String) (notes : List Note) : List Note :=
  if jsTrim searchQuery = "" then notes
  else
    let q := jsToLower searchQuery
    notes.filter fun note =>
      jsIncludes (jsToLower note.title) q || jsIncludes (jsToLower note.content) q

/-- Embeds the selectedNote memo, App.js line 30: the first note whose
id equals the selected id; none when the selection is null or matches
nothing.  This is the selection resolver the spec calls
resolveActiveNote. -/
def selectedNote (notes : List Note) (selectedNoteId : Option String) : Option Note :=
  notes.find? fun n => decide (some n.id = selectedNoteId)

/-- Embeds NoteEditor.handleSave, App.js lines 175-179: commit the
staged title and content through updateNote only when at least one of
them differs from the committed note. -/
def handleSave (title content : String) (note : Note) (t : Timestamp)
    (s : AppState) : AppState :=
  if title ≠ note.title ∨ content ≠ note.content then
    handleUpdateNote note.id { title := some title, content := some content } t s
  else s

/-- One user-triggered store operation, with every clock or random
read it performs recorded as data. -/
inductive Op where
  | create (t : Timestamp) (r : Nat)
  | update (id : String) (fields : NoteFields) (t : Timestamp)
  | delete (id : String)
  | select (id : Option String)
deriving DecidableEq

/-- Apply one operation to the store state. -/
def applyOp (s : AppState) : Op → AppState
  | .create t r => handleCreateNote t r s
  | .update id fields t => handleUpdateNote id fields t s
  | .delete id => handleDeleteNote id s
  | .select id => handleSelectNote id s

/-- Run a sequence of operations from a state. -/
def runOps (s : AppState) : List Op → AppState
  | [] => s
  | op :: ops => runOps (applyOp s op) ops

/-- The clock readings along a run are monotone: every operation that
reads the clock reads a time at least w, and later reads are at least
as large as earlier ones. -/
def ClockMono (w : Timestamp) : List Op → Prop
  | [] => True
  | Op.create t _ :: ops => w ≤ t ∧ ClockMono t ops
  | Op.update _ _ t :: ops => w ≤ t ∧ ClockMono t ops
  | Op.delete _ :: ops => ClockMono w ops
  | Op.select _ :: ops => ClockMono w ops

/-- Timestamp sanity of a state below a watermark w: every note has
created at most updated, and updated at most w. -/
def TimeOK (w : Timestamp) (s : AppState) : Prop :=
  ∀ n ∈ s.notes, n.created ≤ n.updated ∧ n.updated ≤ w

example : jsTrim " " = "" := by decide
example : generateId 5 7 = "id-5-7" := by decide
example : jsToLower "MiLk" = "milk" := by decide

/-! Claim C7. -/

/-- C7: after createNote the new note is at the front of the collection,
all previously existing notes follow in their prior order, and the new
selected id is the id of the new note. -/
theorem createNote_prepends_and_selects (t : Timestamp) (r : Nat) (s : AppState) :
    ∃ newNote : Note,
      (handleCreateNote t r s).notes = newNote :: s.notes ∧
      (handleCreateNote t r s).selectedNoteId = some newNote.id :=
  ⟨_, rfl, rfl⟩

/-! Claim C3. -/

/-- C3 counterexample: the note created into the empty collection has
title "Untitled Note", not the empty string the claim states. -/
theorem createNote_title_cex :
    (handleCreateNote 100 0 initialState).notes.map Note.title = ["Untitled Note"] ∧
    ("Untitled Note" : String) ≠ "" := by decide

/-- C3 (amended): one createNote call at time T on the empty collection
yields exactly one note, whose title is "Untitled Note", whose content
is empty, whose created and updated timestamps both equal T, and the
selected id equals the id of that note. -/
theorem createNote_from_empty (t : Timestamp) (r : Nat) :
    ∃ n : Note, (handleCreateNote t r initialState).notes = [n] ∧
      n.title = "Untitled Note" ∧ n.content = "" ∧ n.created = t ∧ n.updated = t ∧
      (handleCreateNote t r initialState).selectedNoteId = some n.id :=
  ⟨_, rfl, rfl, rfl, rfl, rfl, rfl⟩

/-! Claim C1. -/

/-- C1 counterexample: updateNote called with a title and a content both
equal to the current values of the matching note still bumps updated
(here from 1 to 9), so the returned collection is not unchanged. -/
theorem updateNote_unchanged_fields_bump_cex :
    (handleUpdateNote "id-1-2" { title := some "a", content := some "b" } 9
        { notes := [{ id := "id-1-2", title := "a", content := "b", created := 1, updated := 1 }],
          selectedNoteId := none }).notes.map Note.updated = [9] ∧
    (handleUpdateNote "id-1-2" { title := some "a", content := some "b" } 9
        { notes := [{ id := "id-1-2", title := "a", content := "b", created := 1, updated := 1 }],
          selectedNoteId := none }) ≠
      { notes := [{ id := "id-1-2", title := "a", content := "b", created := 1, updated := 1 }],
        selectedNoteId := none } := by decide

/-- C1 (amended): updateNote with an id matching no note in the
collection returns the state unchanged; the skip-if-unchanged policy is
realised one level up, in the editor save path: handleSave whose staged
title and content both equal the committed values of the note performs
no update at all, so the collection and every updated timestamp stay
unchanged.  updateNote itself, called directly with unchanged field
values, does bump updated. -/
theorem updateNote_noop_policy :
    (∀ (s : AppState) (id : String) (f : NoteFields) (t : Timestamp),
      (∀ n ∈ s.notes, n.id ≠ id) → handleUpdateNote id f t s = s) ∧
    (∀ (title content : String) (note : Note) (t : Timestamp) (s : AppState),
      title = note.title → content = note.content →
        handleSave title content note t s = s) := by
  constructor
  · intro s id f t h
    have h2 : ∀ n ∈ s.notes,
        (if n.id = id then { spreadFields n f with updated := t } else n) =
          (fun n => n) n := by
      intro n hn
      simp [h n hn]
    cases s with
    | mk ns sel =>
      simp only [handleUpdateNote, AppState.mk.injEq, and_true]
      rw [List.map_congr_left h2, List.map_id']
  · intro title content note t s h1 h2
    simp [handleSave, h1, h2]

/-- Witness for updateNote_noop_policy at concrete inputs: an id not in
the collection, and a save whose staged fields match the note. -/
theorem updateNote_noop_policy_witness :
    handleUpdateNote "zz" { title := some "q", content := none } 9
        { notes := [{ id := "id-1-2", title := "a", content := "b", created := 1, updated := 1 }],
          selectedNoteId := none } =
      { notes := [{ id := "id-1-2", title := "a", content := "b", created := 1, updated := 1 }],
        selectedNoteId := none } ∧
    handleSave "a" "b"
        { id := "id-1-2", title := "a", content := "b", created := 1, updated := 1 } 9
        { notes := [{ id := "id-1-2", title := "a", content := "b", created := 1, updated := 1 }],
          selectedNoteId := none } =
      { notes := [{ id := "id-1-2", title := "a", content := "b", created := 1, updated := 1 }],
        selectedNoteId := none } :=
  ⟨updateNote_noop_policy.1 _ "zz" _ 9 (by decide),
   updateNote_noop_policy.2 "a" "b" _ 9 _ rfl rfl⟩

/-! Claim C6. -/

/-- C6: updateNote on the note matching the given id replaces exactly
the supplied fields, keeps id, created and every unsupplied field
unchanged, stamps updated with the operation time, and, when the clock
is monotone (the operation time is at least the prior updated), the new
updated is at least the prior one. -/
theorem updateNote_commits_fields (s : AppState) (id : String) (f : NoteFields)
    (t : Timestamp) (i : Nat) (h : i < s.notes.length)
    (h2 : i < (handleUpdateNote id f t s).notes.length)
    (hid : (s.notes.get ⟨i, h⟩).id = id) :
    (handleUpdateNote id f t s).notes.get ⟨i, h2⟩ =
      { s.notes.get ⟨i, h⟩ with
          title := f.title.getD (s.notes.get ⟨i, h⟩).title
          content := f.content.getD (s.notes.get ⟨i, h⟩).content
          updated := t } ∧
    ((s.notes.get ⟨i, h⟩).updated ≤ t →
      (s.notes.get ⟨i, h⟩).updated ≤
        ((handleUpdateNote id f t s).notes.get ⟨i, h2⟩).updated) := by
  have key : (handleUpdateNote id f t s).notes.get ⟨i, h2⟩ =
      { s.notes.get ⟨i, h⟩ with
          title := f.title.getD (s.notes.get ⟨i, h⟩).title
          content := f.content.getD (s.notes.get ⟨i, h⟩).content
          updated := t } := by
    simp only [handleUpdateNote, List.get_eq_getElem, List.getElem_map]
    rw [if_pos]
    · rfl
    · simpa [List.get_eq_getElem] using hid
  refine ⟨key, fun hle => ?_⟩
  rw [key]
  exact hle

/-- Witness for updateNote_commits_fields: a one-note collection, a
title-only update, and the evaluated result. -/
theorem updateNote_commits_fields_witness :
    (handleUpdateNote "id-1-2" { title := some "X", content := none } 9
        { notes := [{ id := "id-1-2", title := "a", content := "b", created := 1, updated := 1 }],
          selectedNoteId := none }).notes.get ⟨0, by decide⟩ =
      { id := "id-1-2", title := "X", content := "b", created := 1, updated := 9 } ∧
    (1 : Timestamp) ≤ 9 := by
  have h := updateNote_commits_fields
      { notes := [{ id := "id-1-2", title := "a", content := "b", created := 1, updated := 1 }],
        selectedNoteId := none }
      "id-1-2" { title := some "X", content := none } 9 0 (by decide) (by decide) (by decide)
  exact ⟨h.1, h.2 (by decide)⟩

/-! Claim C10. -/

/-- C10: updateNote preserves the length and the id sequence (hence the
order) of the collection, and every note whose id differs from the
target id is entirely unchanged, staying at its original position. -/
theorem updateNote_frame (s : AppState) (id : String) (f : NoteFields) (t : Timestamp) :
    (handleUpdateNote id f t s).notes.map Note.id = s.notes.map Note.id ∧
    (handleUpdateNote id f t s).notes.length = s.notes.length ∧
    ∀ (i : Nat) (h : i < s.notes.length) (h2 : i < (handleUpdateNote id f t s).notes.length),
      (s.notes.get ⟨i, h⟩).id ≠ id →
        (handleUpdateNote id f t s).notes.get ⟨i, h2⟩ = s.notes.get ⟨i, h⟩ := by
  refine ⟨?_, ?_, ?_⟩
  · simp only [handleUpdateNote, List.map_map]
    apply List.map_congr_left
    intro n hn
    by_cases hcase : n.id = id <;> simp [hcase, spreadFields]
  · simp [handleUpdateNote]
  · intro i h h2 hne
    simp only [handleUpdateNote, List.get_eq_getElem, List.getElem_map]
    rw [if_neg]
    simpa [List.get_eq_getElem] using hne

/-- Witness for updateNote_frame: a two-note collection, updating one
note leaves the id sequence, the length and the other note intact. -/
theorem updateNote_frame_witness :
    (handleUpdateNote "id-1-2" { title := some "X", content := none } 9
        { notes := [{ id := "id-1-2", title := "a", content := "b", created := 1, updated := 1 },
                    { id := "id-3-4", title := "c", content := "d", created := 2, updated := 2 }],
          selectedNoteId := none }).notes.map Note.id = ["id-1-2", "id-3-4"] ∧
    (handleUpdateNote "id-1-2" { title := some "X", content := none } 9
        { notes := [{ id := "id-1-2", title := "a", content := "b", created := 1, updated := 1 },
                    { id := "id-3-4", title := "c", content := "d", created := 2, updated := 2 }],
          selectedNoteId := none }).notes.get ⟨1, by decide⟩ =
      { id := "id-3-4", title := "c", content := "d", created := 2, updated := 2 } := by
  have h := updateNote_frame
      { notes := [{ id := "id-1-2", title := "a", content := "b", created := 1, updated := 1 },
                  { id := "id-3-4", title := "c", content := "d", created := 2, updated := 2 }],
        selectedNoteId := none }
      "id-1-2" { title := some "X", content := none } 9
  refine ⟨?_, h.2.2 1 (by decide) (by decide) (by decide)⟩
  rw [h.1]
  decide

/-! Claim C5. -/

/-- C5 counterexample: deleting an id that matches no note does leave
the collection unchanged, but when that id happens to equal the (stale)
selected id, the selection is cleared to none rather than left
unchanged, refuting the third clause of the claim. -/
theorem deleteNote_dangling_selection_cex :
    "zz" ∉ ({ notes := [{ id := "id-1-2", title := "a", content := "b", created := 1, updated := 1 }],
              selectedNoteId := some "zz" } : AppState).notes.map Note.id ∧
    (handleDeleteNote "zz"
        { notes := [{ id := "id-1-2", title := "a", content := "b", created := 1, updated := 1 }],
          selectedNoteId := some "zz" }).notes =
      [{ id := "id-1-2", title := "a", content := "b", created := 1, updated := 1 }] ∧
    (handleDeleteNote "zz"
        { notes := [{ id := "id-1-2", title := "a", content := "b", created := 1, updated := 1 }],
          selectedNoteId := some "zz" }).selectedNoteId = none := by decide

/-- C5 (amended): deleteNote of the selected id N clears the selection;
deleteNote of M different from the selected id leaves the selection at
N; deleteNote removes exactly the notes matching the given id, keeping
the others in order; and deleteNote of an id matching no note leaves
the collection unchanged and leaves the selection unchanged unless the
selection itself equals that (stale) id, in which case the selection
becomes none. -/
theorem deleteNote_selection_behavior (s : AppState) (N M id : String) :
    (s.selectedNoteId = some N → (handleDeleteNote N s).selectedNoteId = none) ∧
    (s.selectedNoteId = some N → M ≠ N → (handleDeleteNote M s).selectedNoteId = some N) ∧
    (∀ n ∈ (handleDeleteNote id s).notes, n.id ≠ id) ∧
    ((handleDeleteNote id s).notes.Sublist s.notes) ∧
    (∀ n ∈ s.notes, n.id ≠ id → n ∈ (handleDeleteNote id s).notes) ∧
    ((∀ n ∈ s.notes, n.id ≠ id) →
      (handleDeleteNote id s).notes = s.notes ∧
      (s.selectedNoteId ≠ some id → (handleDeleteNote id s).selectedNoteId = s.selectedNoteId) ∧
      (s.selectedNoteId = some id → (handleDeleteNote id s).selectedNoteId = none)) := by
  refine ⟨?_, ?_, ?_, ?_, ?_, ?_⟩
  · intro hsel
    simp [handleDeleteNote, hsel]
  · intro hsel hMN
    simp [handleDeleteNote, hsel, Ne.symm hMN]
  · intro n hn
    have := (List.mem_filter.mp hn).2
    simpa using this
  · exact List.filter_sublist _
  · intro n hn hne
    exact List.mem_filter.mpr ⟨hn, by simpa using hne⟩
  · intro hnone
    refine ⟨?_, ?_, ?_⟩
    · apply List.filter_eq_self.mpr
      intro n hn
      simpa using hnone n hn
    · intro hne
      simp [handleDeleteNote, hne]
    · intro hsel
      simp [handleDeleteNote, hsel]

/-- Witness for deleteNote_selection_behavior: a one-note state whose
note is selected; deleting it clears the selection, deleting another
id keeps it, and deleting an unknown id keeps the collection. -/
theorem deleteNote_selection_witness :
    (handleDeleteNote "id-1-2"
        { notes := [{ id := "id-1-2", title := "a", content := "b", created := 1, updated := 1 }],
          selectedNoteId := some "id-1-2" }).selectedNoteId = none ∧
    (handleDeleteNote "id-3-4"
        { notes := [{ id := "id-1-2", title := "a", content := "b", created := 1, updated := 1 }],
          selectedNoteId := some "id-1-2" }).selectedNoteId = some "id-1-2" ∧
    (handleDeleteNote "zz"
        { notes := [{ id := "id-1-2", title := "a", content := "b", created := 1, updated := 1 }],
          selectedNoteId := some "id-1-2" }).notes =
      [{ id := "id-1-2", title := "a", content := "b", created := 1, updated := 1 }] := by
  refine ⟨?_, ?_, ?_⟩
  · exact (deleteNote_selection_behavior _ "id-1-2" "id-3-4" "zz").1 rfl
  · exact (deleteNote_selection_behavior _ "id-1-2" "id-3-4" "zz").2.1 rfl (by decide)
  · exact ((deleteNote_selection_behavior _ "id-1-2" "id-3-4" "zz").2.2.2.2.2 (by decide)).1

/-! Claim C9. -/

/-- C9: the selection resolver is total over every (collection,
selected id) pair, the empty collection and the null id included: with
a null selection it returns the none sentinel, when no note matches it
returns none, any returned note belongs to the collection and matches
the selected id, and under the id-uniqueness invariant the note whose
id equals the selected id is exactly what it returns. -/
theorem resolveActiveNote_total (notes : List Note) (sel : Option String) :
    (sel = none → selectedNote notes sel = none) ∧
    ((∀ n ∈ notes, some n.id ≠ sel) → selectedNote notes sel = none) ∧
    (∀ n : Note, selectedNote notes sel = some n → n ∈ notes ∧ some n.id = sel) ∧
    ((notes.map Note.id).Nodup →
      ∀ n ∈ notes, some n.id = sel → selectedNote notes sel = some n) := by
  refine ⟨?_, ?_, ?_, ?_⟩
  · intro hsel
    subst hsel
    apply List.find?_eq_none.mpr
    intro x _
    simp
  · intro hall
    apply List.find?_eq_none.mpr
    intro x hx
    simpa using hall x hx
  · intro n hfind
    refine ⟨List.mem_of_find?_eq_some hfind, ?_⟩
    simpa using List.find?_some hfind
  · intro hnd n hn hid
    have hs : (notes.find? fun n => decide (some n.id = sel)).isSome :=
      List.find?_isSome.mpr ⟨n, hn, by simpa using hid⟩
    obtain ⟨m, hm⟩ := Option.isSome_iff_exists.mp hs
    have hmem : m ∈ notes := List.mem_of_find?_eq_some hm
    have hmid : some m.id = sel := by simpa using List.find?_some hm
    have heq : m = n := by
      apply List.inj_on_of_nodup_map hnd hmem hn
      have h3 := hmid.trans hid.symm
      exact Option.some_injective _ h3
    rw [selectedNote, hm, heq]

/-- Witness for resolveActiveNote_total: a two-note collection resolved
with a null id, an unknown id, and the id of the second note. -/
theorem resolveActiveNote_total_witness :
    selectedNote [{ id := "id-1-2", title := "a", content := "b", created := 1, updated := 1 },
                  { id := "id-3-4", title := "c", content := "d", created := 2, updated := 2 }]
        none = none ∧
    selectedNote [{ id := "id-1-2", title := "a", content := "b", created := 1, updated := 1 },
                  { id := "id-3-4", title := "c", content := "d", created := 2, updated := 2 }]
        (some "qq") = none ∧
    selectedNote [{ id := "id-1-2", title := "a", content := "b", created := 1, updated := 1 },
                  { id := "id-3-4", title := "c", content := "d", created := 2, updated := 2 }]
        (some "id-3-4") =
      some { id := "id-3-4", title := "c", content := "d", created := 2, updated := 2 } := by
  refine ⟨?_, ?_, ?_⟩
  · exact (resolveActiveNote_total _ _).1 rfl
  · exact (resolveActiveNote_total _ _).2.1 (by decide)
  · exact (resolveActiveNote_total _ _).2.2.2 (by decide) _ (by decide) (by decide)

/-! Claim C4. -/

/-- The trimmed string is empty exactly when every character of the
original string is whitespace (so also when the string is empty). -/
lemma jsTrim_eq_empty_iff (s : String) :
    jsTrim s = "" ↔ ∀ c ∈ s.data, c.isWhitespace = true := by
  have h1 : jsTrim s = "" ↔
      ∀ c ∈ s.data.dropWhile Char.isWhitespace, c.isWhitespace = true := by
    rw [jsTrim, String.ext_iff]
    simp [List.dropWhile_eq_nil_iff]
  rw [h1]
  constructor
  · intro h c hc
    have hc2 : c ∈ List.takeWhile Char.isWhitespace s.data ++
        List.dropWhile Char.isWhitespace s.data := by
      rw [List.takeWhile_append_dropWhile]
      exact hc
    rcases List.mem_append.mp hc2 with h3 | h3
    · exact List.mem_takeWhile_imp h3
    · exact h c h3
  · intro h c hc
    apply h
    have hc2 : c ∈ List.takeWhile Char.isWhitespace s.data ++
        List.dropWhile Char.isWhitespace s.data := List.mem_append_right _ hc
    rw [List.takeWhile_append_dropWhile] at hc2
    exact hc2

/-- C4 counterexample: the query " " is non-empty, yet filterNotes
returns the full collection (the trim branch fires), including a note
that does not contain " " in its lowered title or content — refuting
the inclusion-iff clause read over all non-empty queries. -/
theorem filterNotes_whitespace_query_cex :
    filteredNotes " "
        [{ id := "id-1-2", title := "x", content := "y", created := 1, updated := 1 }] =
      [{ id := "id-1-2", title := "x", content := "y", created := 1, updated := 1 }] ∧
    ¬ ((jsToLower " ").data <:+: (jsToLower "x").data) ∧
    ¬ ((jsToLower " ").data <:+: (jsToLower "y").data) ∧
    (" " : String) ≠ "" := by decide

/-- C4 (amended): when the query is empty or all-whitespace,
filterNotes returns the collection unchanged (same elements, same
order); for every query containing a non-whitespace character, a note
is in the result exactly when the lowered query occurs as a substring
of its lowered title or lowered content, and the result preserves the
relative order of the input collection. -/
theorem filterNotes_correct (searchQuery : String) (notes : List Note) :
    ((∀ c ∈ searchQuery.data, c.isWhitespace = true) →
      filteredNotes searchQuery notes = notes) ∧
    ((¬ ∀ c ∈ searchQuery.data, c.isWhitespace = true) →
      (filteredNotes searchQuery notes).Sublist notes ∧
      ∀ n ∈ notes,
        (n ∈ filteredNotes searchQuery notes ↔
          ((jsToLower searchQuery).data <:+: (jsToLower n.title).data ∨
           (jsToLower searchQuery).data <:+: (jsToLower n.content).data))) := by
  constructor
  · intro hws
    simp [filteredNotes, (jsTrim_eq_empty_iff searchQuery).mpr hws]
  · intro hnws
    have ht : ¬ jsTrim searchQuery = "" := fun h =>
      hnws ((jsTrim_eq_empty_iff searchQuery).mp h)
    constructor
    · rw [filteredNotes, if_neg ht]
      exact List.filter_sublist _
    · intro n hn
      rw [filteredNotes, if_neg ht]
      simp [List.mem_filter, hn, jsIncludes]

/-- Witness for filterNotes_correct: the empty query returns the
collection, and the query "MILK" matches a note through its content,
case-insensitively. -/
theorem filterNotes_correct_witness :
    filteredNotes ""
        [{ id := "id-1-2", title := "Groceries", content := "milk, eggs",
           created := 1, updated := 1 }] =
      [{ id := "id-1-2", title := "Groceries", content := "milk, eggs",
         created := 1, updated := 1 }] ∧
    (filteredNotes "MILK"
        [{ id := "id-1-2", title := "Groceries", content := "milk, eggs",
           created := 1, updated := 1 }]).Sublist
      [{ id := "id-1-2", title := "Groceries", content := "milk, eggs",
         created := 1, updated := 1 }] ∧
    { id := "id-1-2", title := "Groceries", content := "milk, eggs",
      created := 1, updated := 1 } ∈
      filteredNotes "MILK"
        [{ id := "id-1-2", title := "Groceries", content := "milk, eggs",
           created := 1, updated := 1 }] := by
  refine ⟨(filterNotes_correct "" _).1 (by decide), ?_, ?_⟩
  · exact ((filterNotes_correct "MILK" _).2 (by decide)).1
  · exact (((filterNotes_correct "MILK" _).2 (by decide)).2 _ (by decide)).mpr
      (Or.inr (by decide))

/-! Claim C8. -/

/-- Running operations with monotone clock readings from a
timestamp-sane state yields a timestamp-sane state (for some final
watermark). -/
lemma timeOK_runOps : ∀ (ops : List Op) (s : AppState) (w : Timestamp),
    TimeOK w s → ClockMono w ops → ∃ w2, TimeOK w2 (runOps s ops) := by
  intro ops
  induction ops with
  | nil =>
    intro s w hok _
    exact ⟨w, hok⟩
  | cons op ops ih =>
    intro s w hok hmono
    cases op with
    | create t r =>
      obtain ⟨hwt, hmono2⟩ := hmono
      refine ih _ t ?_ hmono2
      intro n hn
      rcases List.mem_cons.mp hn with h3 | h3
      · subst h3
        exact ⟨Nat.le_refl t, Nat.le_refl t⟩
      · exact ⟨(hok n h3).1, Nat.le_trans (hok n h3).2 hwt⟩
    | update id f t =>
      obtain ⟨hwt, hmono2⟩ := hmono
      refine ih _ t ?_ hmono2
      intro n hn
      obtain ⟨m, hm, rfl⟩ := List.mem_map.mp hn
      by_cases hcase : m.id = id
      · simp only [hcase, if_pos]
        exact ⟨Nat.le_trans (hok m hm).1 (Nat.le_trans (hok m hm).2 hwt), Nat.le_refl t⟩
      · simp only [hcase, if_neg, if_false]
        exact ⟨(hok m hm).1, Nat.le_trans (hok m hm).2 hwt⟩
    | delete id =>
      refine ih _ w ?_ hmono
      intro n hn
      exact hok n ((List.filter_sublist s.notes).mem hn)
    | select id =>
      exact ih _ w hok hmono

/-- C8: in every state reachable from the empty initial state by a
sequence of createNote, updateNote, deleteNote and selectNote
operations whose clock readings are monotone, every note in the
collection satisfies created ≤ updated. -/
theorem reachable_updated_ge_created (ops : List Op) (w : Timestamp)
    (hmono : ClockMono w ops) :
    ∀ n ∈ (runOps initialState ops).notes, n.created ≤ n.updated := by
  obtain ⟨w2, hok⟩ := timeOK_runOps ops initialState w (fun n hn => by cases hn) hmono
  exact fun n hn => (hok n hn).1

/-- Witness for reachable_updated_ge_created: create a note at time 1,
then retitle it at time 2; the resulting note has created 1 and
updated 2. -/
theorem reachable_updated_ge_created_witness :
    ({ id := "id-1-0", title := "a", content := "", created := 1, updated := 2 } : Note).created ≤
      ({ id := "id-1-0", title := "a", content := "", created := 1, updated := 2 } : Note).updated :=
  reachable_updated_ge_created
    [Op.create 1 0, Op.update "id-1-0" { title := some "a", content := none } 2] 0
    ⟨by decide, by decide, trivial⟩ _ (by decide)

/-! Claim C2.  The id generator concatenates the decimal expansions of
the wall-clock reading and of the random draw around separator dashes;
the lemmas below show the digit part decodes back, so two ids built
from different clock readings differ as strings. -/

/-- The accumulator of Nat.toDigitsCore is just appended to the
digits it produces. -/
lemma toDigitsCore_append (b : Nat) : ∀ (fuel n : Nat) (ds : List Char),
    Nat.toDigitsCore b fuel n ds = Nat.toDigitsCore b fuel n [] ++ ds := by
  intro fuel
  induction fuel with
  | zero =>
    intro n ds
    simp [Nat.toDigitsCore]
  | succ fuel ih =>
    intro n ds
    simp only [Nat.toDigitsCore]
    by_cases h : n / b = 0
    · simp [h]
    · rw [if_neg h, if_neg h, ih (n / b) ((n % b).digitChar :: ds),
        ih (n / b) [(n % b).digitChar]]
      simp

/-- Nat.toDigitsCore does not depend on the fuel once the fuel
exceeds the number. -/
lemma toDigitsCore_fuel (b : Nat) (hb : 2 ≤ b) : ∀ (n fuel1 fuel2 : Nat),
    n < fuel1 → n < fuel2 →
    Nat.toDigitsCore b fuel1 n [] = Nat.toDigitsCore b fuel2 n [] := by
  intro n
  induction n using Nat.strong_induction_on with
  | _ n ih =>
    intro fuel1 fuel2 h1 h2
    cases fuel1 with
    | zero => exact absurd h1 (Nat.not_lt_zero n)
    | succ f1 =>
      cases fuel2 with
      | zero => exact absurd h2 (Nat.not_lt_zero n)
      | succ f2 =>
        simp only [Nat.toDigitsCore]
        by_cases h : n / b = 0
        · simp [h]
        · rw [if_neg h, if_neg h]
          have hnpos : 0 < n := by
            rcases Nat.eq_zero_or_pos n with h0 | h0
            · subst h0
              simp at h
            · exact h0
          have hlt : n / b < n := Nat.div_lt_self hnpos (by omega)
          rw [toDigitsCore_append b f1 (n / b), toDigitsCore_append b f2 (n / b),
            ih (n / b) hlt f1 f2 (by omega) (by omega)]

/-- Decoding inverts Nat.digitChar on single decimal digits. -/
lemma digitChar_decode : ∀ d : Nat, d < 10 → (Nat.digitChar d).toNat - 48 = d := by decide

/-- Nat.digitChar yields a digit character on decimal digits. -/
lemma digitChar_isDigit : ∀ d : Nat, d < 10 → (Nat.digitChar d).isDigit = true := by decide

/-- Decoding one more trailing digit. -/
lemma decodeDigits_snoc (l : List Char) (c : Char) :
    decodeDigits (l ++ [c]) = 10 * decodeDigits l + (c.toNat - 48) := by
  simp [decodeDigits, List.foldl_append]

/-- Decoding the printed digits of n gives back n. -/
lemma decode_toDigits : ∀ n : Nat, decodeDigits (Nat.toDigits 10 n) = n := by
  intro n
  induction n using Nat.strong_induction_on with
  | _ n ih =>
    rw [Nat.toDigits]
    simp only [Nat.toDigitsCore]
    by_cases h : n / 10 = 0
    · rw [if_pos h]
      have hn10 : n < 10 := (Nat.div_eq_zero_iff (by decide)).mp h
      have hmod : n % 10 = n := Nat.mod_eq_of_lt hn10
      simp only [decodeDigits, List.foldl_cons, List.foldl_nil]
      rw [hmod, digitChar_decode n hn10]
      omega
    · rw [if_neg h]
      have hnpos : 0 < n := by
        rcases Nat.eq_zero_or_pos n with h0 | h0
        · subst h0
          simp at h
        · exact h0
      have hlt : n / 10 < n := Nat.div_lt_self hnpos (by omega)
      rw [toDigitsCore_append 10 n (n / 10),
        toDigitsCore_fuel 10 (by omega) (n / 10) n (n / 10 + 1) hlt (Nat.lt_succ_self _),
        decodeDigits_snoc]
      have hrec : decodeDigits (Nat.toDigitsCore 10 (n / 10 + 1) (n / 10) []) = n / 10 :=
        ih (n / 10) hlt
      rw [hrec, digitChar_decode (n % 10) (Nat.mod_lt n (by omega))]
      omega

/-- Every character printed by Nat.toDigitsCore in base 10 is either
from the accumulator or a digit. -/
lemma toDigitsCore_chars : ∀ (fuel n : Nat) (ds : List Char) (c : Char),
    c ∈ Nat.toDigitsCore 10 fuel n ds → c ∈ ds ∨ c.isDigit = true := by
  intro fuel
  induction fuel with
  | zero =>
    intro n ds c hc
    simp only [Nat.toDigitsCore] at hc
    exact Or.inl hc
  | succ fuel ih =>
    intro n ds c hc
    simp only [Nat.toDigitsCore] at hc
    by_cases h : n / 10 = 0
    · rw [if_pos h] at hc
      rcases List.mem_cons.mp hc with h3 | h3
      · subst h3
        exact Or.inr (digitChar_isDigit _ (Nat.mod_lt n (by omega)))
      · exact Or.inl h3
    · rw [if_neg h] at hc
      rcases ih (n / 10) _ c hc with h3 | h3
      · rcases List.mem_cons.mp h3 with h4 | h4
        · subst h4
          exact Or.inr (digitChar_isDigit _ (Nat.mod_lt n (by omega)))
        · exact Or.inl h4
      · exact Or.inr h3

/-- The decimal expansion of a natural number contains no dash. -/
lemma repr_no_dash (n : Nat) : ('-' : Char) ∉ (Nat.repr n).data := by
  intro hmem
  rcases toDigitsCore_chars (n + 1) n [] '-' hmem with h | h
  · cases h
  · exact absurd h (by decide)

/-- Splitting at a separator absent from both prefixes is unambiguous. -/
lemma append_sep_injective (c : Char) : ∀ (xs xs2 ys ys2 : List Char),
    xs ++ c :: ys = xs2 ++ c :: ys2 → c ∉ xs → c ∉ xs2 → xs = xs2 := by
  intro xs
  induction xs with
  | nil =>
    intro xs2 ys ys2 heq h1 h2
    cases xs2 with
    | nil => rfl
    | cons a t =>
      simp only [List.nil_append, List.cons_append, List.cons.injEq] at heq
      refine absurd ?_ h2
      rw [heq.1]
      exact List.mem_cons_self a t
  | cons a t ih =>
    intro xs2 ys ys2 heq h1 h2
    cases xs2 with
    | nil =>
      simp only [List.cons_append, List.nil_append, List.cons.injEq] at heq
      refine absurd ?_ h1
      rw [heq.1]
      exact List.mem_cons_self c t
    | cons a2 t2 =>
      simp only [List.cons_append, List.cons.injEq] at heq
      rw [heq.1, ih t2 ys ys2 heq.2
        (fun hm => h1 (List.mem_cons_of_mem a hm))
        (fun hm => h2 (List.mem_cons_of_mem a2 hm))]

/-- Ids generated from different wall-clock readings differ, whatever
the random draws are. -/
lemma generateId_inj_time {t1 r1 t2 r2 : Nat}
    (h : generateId t1 r1 = generateId t2 r2) : t1 = t2 := by
  have hd := congrArg String.data h
  simp only [generateId, String.data_append] at hd
  have hd2 : (Nat.repr t1).data ++ '-' :: (Nat.repr r1).data =
      (Nat.repr t2).data ++ '-' :: (Nat.repr r2).data := by
    have hd3 : ('i' :: 'd' :: '-' :: ((Nat.repr t1).data ++ '-' :: (Nat.repr r1).data) :
        List Char) = 'i' :: 'd' :: '-' :: ((Nat.repr t2).data ++ '-' :: (Nat.repr r2).data) := by
      simpa [List.append_assoc] using hd
    simpa using hd3
  have hA : (Nat.repr t1).data = (Nat.repr t2).data :=
    append_sep_injective '-' _ _ _ _ hd2 (repr_no_dash t1) (repr_no_dash t2)
  have hdec : decodeDigits (Nat.toDigits 10 t1) = decodeDigits (Nat.toDigits 10 t2) :=
    congrArg decodeDigits hA
  rwa [decode_toDigits, decode_toDigits] at hdec

/-- Running only create operations accumulates exactly the generated
ids, most recent first. -/
lemma runOps_creates_ids : ∀ (ps : List (Timestamp × Nat)) (s : AppState),
    (runOps s (ps.map fun p => Op.create p.1 p.2)).notes.map Note.id =
      (ps.map fun p => generateId p.1 p.2).reverse ++ s.notes.map Note.id := by
  intro ps
  induction ps with
  | nil =>
    intro s
    simp [runOps]
  | cons p ps ih =>
    intro s
    simp only [List.map_cons, runOps, applyOp]
    rw [ih]
    simp [handleCreateNote, List.append_assoc]

/-- C2 counterexample: two createNote calls that read the same
Date.now value and draw the same random number produce identical ids,
so the ids of the notes created in a session are not always pairwise
distinct. -/
theorem createNote_ids_collide_cex :
    ¬ ((runOps initialState [Op.create 5 7, Op.create 5 7]).notes.map Note.id).Nodup := by
  decide

/-- C2 (amended): across any session of createNote calls whose
Date.now readings strictly increase from call to call, the assigned
ids are pairwise distinct; when a (time, random) pair repeats, the ids
collide, as the counterexample shows — uniqueness is only
probabilistic, exactly as the design note on the wall-clock plus
jitter scheme concedes. -/
theorem createNote_ids_distinct (ps : List (Timestamp × Nat))
    (hmono : List.Pairwise (fun p q => p.1 < q.1) ps) :
    ((runOps initialState (ps.map fun p => Op.create p.1 p.2)).notes.map Note.id).Nodup := by
  rw [runOps_creates_ids]
  simp only [initialState, List.map_nil, List.append_nil]
  rw [List.nodup_reverse]
  refine List.Pairwise.map _ ?_ hmono
  intro a b hab heq
  exact absurd (generateId_inj_time heq) (Nat.ne_of_lt hab)

/-- Witness for createNote_ids_distinct: two creates at the strictly
increasing times 1 and 2 yield distinct ids. -/
theorem createNote_ids_distinct_witness :
    ((runOps initialState [Op.create 1 0, Op.create 2 0]).notes.map Note.id).Nodup :=
  createNote_ids_distinct [(1, 0), (2, 0)] (by decide)
